import Mathlib

/-!
Verification of the light identity resolution and discovery subsystem of
`elgato.py` (a command-line controller for Elgato key lights).

The Python source is shallowly embedded below:

* `Light` embeds the `Light` class (only its data: `name`, `location`);
* `pyIntParse` embeds Python's `int(str)` conversion (ASCII range);
* `ipv4Parse` / `isIPv6` / `pyIpAddress` embed `ipaddress.ip_address`, the
  stdlib validator called by `get_lights`;
* `is_light_number`, `resolve_one`, `get_lights` embed the reference
  resolver (`is_light_number` and `get_lights` in the source);
* `findGo`, `findGoI`, `find_lights` embed the discovery session
  (`find_lights` in the source);
* `JVal`, `PyVal`, `light_to_json`, `light_from_json`, `decodeJson`,
  `json_load`, `maybe_load_lights_from_config` embed the persisted-registry
  load/save path (`light_to_json`, `light_from_json`,
  `maybe_load_lights_from_config` in the source).

Effectful pieces (process exit, file I/O, zeroconf events, the interactive
prompt) are modeled by explicit state passing: `sys.exit(1)` becomes the
`Except ResolveError` error path, the config file becomes an explicit
state component, and zeroconf advertisements / operator answers become
input streams indexed by wait-window number.
-/

/-- Embeds the `Light` class: a display name plus a `host:port` location
string. Only the data fields are modeled; the HTTP methods are outside the
core under verification. -/
structure Light where
  name : String
  location : String
deriving DecidableEq, Repr

/-- The fixed default port constant `default_port = 9123` from the source,
used when an address reference has no explicit port. -/
def default_port : Int := 9123

/-- Splits a character list on every occurrence of the separator, keeping
empty segments: the model of Python's `str.split(sep)`. Always returns a
nonempty list of segments. -/
def splitOnChar (sep : Char) : List Char → List (List Char)
  | [] => [[]]
  | a :: rest =>
    match splitOnChar sep rest with
    | [] => [[]]
    | g :: gs => if a = sep then [] :: g :: gs else (a :: g) :: gs

/-- Joins segments with the separator: inverse of `splitOnChar`. -/
def joinSep (sep : Char) : List (List Char) → List Char
  | [] => []
  | [g] => g
  | g :: gs => g ++ sep :: joinSep sep gs

/-- Splits at the first occurrence of the separator, the model of Python's
`str.split(sep, 1)`; `none` when the separator does not occur (Python's
`sep in s` test is false). -/
def splitFirstOn (sep : Char) : List Char → Option (List Char × List Char)
  | [] => none
  | a :: rest =>
    if a = sep then some ([], rest)
    else (splitFirstOn sep rest).map (fun p => (a :: p.1, p.2))

/-- The numeric value of an ASCII digit character. -/
def digitVal (c : Char) : Nat := c.toNat - 48

/-- The ASCII digit character of a value below ten. -/
def digitOfNat (d : Nat) : Char := Char.ofNat (48 + d)

/-- Little-endian base-ten digits of a natural number, computed with
explicit fuel so that the definition is structural (kernel-reducible);
`natDigitsAux_eq` identifies it with `Nat.digits 10`. -/
def natDigitsAux : Nat → Nat → List Nat
  | 0, _ => []
  | _, 0 => []
  | fuel+1, n+1 => ((n+1) % 10) :: natDigitsAux fuel ((n+1) / 10)

/-- Decimal rendering of a natural number as characters: the model of
Python's `str(n)` for `n >= 0`. -/
def natChars (n : Nat) : List Char :=
  if n = 0 then ['0'] else (natDigitsAux n n).reverse.map digitOfNat

/-- Decimal rendering of a Python integer as a string: the model of
Python's `str(i)` on `int` values, including the `-` sign. -/
def pyIntRepr (i : Int) : String :=
  if i < 0 then String.mk ('-' :: natChars i.natAbs) else String.mk (natChars i.toNat)

/-- The numeric value of a big-endian list of ASCII digit characters. -/
def valOfDigits (cs : List Char) : Nat :=
  Nat.ofDigits 10 ((cs.map digitVal).reverse)

/-- The whitespace characters stripped by Python's `int(str)` conversion
(the ASCII range; CLI tokens in this program are ASCII). -/
def isPyWhitespace (c : Char) : Bool :=
  c = ' ' ∨ c = '\t' ∨ c = '\n' ∨ c = '\r' ∨ c = '\x0b' ∨ c = '\x0c'

/-- Strips leading and trailing whitespace, as Python's `int(str)` does
before parsing. -/
def stripWs (cs : List Char) : List Char :=
  ((cs.dropWhile isPyWhitespace).reverse.dropWhile isPyWhitespace).reverse

/-- The unsigned body of a Python integer literal: ASCII digit groups
separated by single underscores (an underscore must sit between digits,
so no leading, trailing, or doubled underscores). -/
def parseBody (cs : List Char) : Option Nat :=
  let groups := splitOnChar '_' cs
  if groups.all (fun g => !g.isEmpty && g.all Char.isDigit) then
    some (valOfDigits (cs.filter (fun c => c ≠ '_')))
  else none

/-- Embeds Python's `int(str)` conversion (restricted to the ASCII range):
surrounding whitespace is stripped, an optional single `+`/`-` sign is
consumed, and the remainder must be digit groups separated by single
underscores. Returns `none` where `int()` raises `ValueError`. -/
def pyIntParse (cs : List Char) : Option Int :=
  match stripWs cs with
  | [] => none
  | c :: rest =>
    if c = '+' then (parseBody rest).map Int.ofNat
    else if c = '-' then (parseBody rest).map (fun v : Nat => -(v : Int))
    else (parseBody (c :: rest)).map Int.ofNat

/-- Embeds `ipaddress._parse_octet`: an IPv4 octet is one to three ASCII
digits, without a leading zero unless it is exactly `0`, valued at most
255. -/
def parseOctet (g : List Char) : Option Nat :=
  if !g.isEmpty && g.all Char.isDigit && g.length ≤ 3
      && (g.head? ≠ some '0' || g = ['0']) then
    let v := valOfDigits g
    if v ≤ 255 then some v else none
  else none

/-- Parses every group with `parseOctet`, failing if any fails. -/
def parseOctets : List (List Char) → Option (List Nat)
  | [] => some []
  | g :: gs =>
    match parseOctet g with
    | none => none
    | some v =>
      match parseOctets gs with
      | none => none
      | some vs => some (v :: vs)

/-- Embeds `ipaddress.IPv4Address` string validation: exactly four
dot-separated octets, each accepted by `parseOctet`. Returns the octet
values. -/
def ipv4Parse (cs : List Char) : Option (List Nat) :=
  let groups := splitOnChar '.' cs
  if groups.length = 4 then parseOctets groups else none

/-- The canonical dotted-decimal rendering of IPv4 octets, the model of
Python's `str(IPv4Address(...))`. -/
def renderIPv4 (octs : List Nat) : List Char :=
  joinSep '.' (octs.map natChars)

/-- Embeds `ipaddress._parse_hextet`: one to four ASCII hex digits. -/
def parseHextet (g : List Char) : Bool :=
  !g.isEmpty && g.length ≤ 4 && g.all (fun c => c.isDigit || ('a' ≤ c && c ≤ 'f') || ('A' ≤ c && c ≤ 'F'))

/-- Validity of an IPv6 hextet part list after the IPv4-suffix
substitution step (see `isIPv6`): at most nine parts, at most one interior
empty part (the `::` compression, which must also cover a leading or
trailing bare colon and must stand for at least one zero group), every
counted part a hextet. The `getD` default `['x']` is never consulted (all
indices are in range) and is chosen nonempty so it can never register as
an empty part. -/
def isIPv6Parts (parts : List (List Char)) : Bool :=
  let n := parts.length
  if n > 9 then false else
  match (List.range n).filter
      (fun i => decide (0 < i) && decide (i + 1 < n) && (parts.getD i ['x']).isEmpty) with
  | [] =>
    n = 8 && parts.all parseHextet
  | [i] =>
    let firstEmpty := (parts.getD 0 ['x']).isEmpty
    let lastEmpty := (parts.getD (n - 1) ['x']).isEmpty
    if firstEmpty && decide (i - 1 ≠ 0) then false else
    if lastEmpty && decide (n - i - 2 ≠ 0) then false else
    let hi := if firstEmpty then i - 1 else i
    let lo := if lastEmpty then n - i - 2 else n - i - 1
    if hi + lo > 7 then false else
    ((List.range hi).all fun j => parseHextet (parts.getD j ['x'])) &&
    ((List.range lo).all fun j => parseHextet (parts.getD (n - lo + j) ['x']))
  | _ => false

/-- Embeds `ipaddress.IPv6Address` string validation (the syntactic accept
set of `_ip_int_from_string`): split on colons, require at least three
parts, substitute an embedded IPv4 suffix in the last part by two hextets
(the two substituted groups are written `0` here since only their count
affects validity), then check the part list with `isIPv6Parts`. -/
def isIPv6 (cs : List Char) : Bool :=
  let parts0 := splitOnChar ':' cs
  if parts0.length < 3 then false else
  let lastPart := (parts0.getLast?).getD []
  if lastPart.contains '.' then
    match ipv4Parse lastPart with
    | none => false
    | some _ => isIPv6Parts (parts0.dropLast ++ [['0'], ['0']])
  else isIPv6Parts parts0

/-- Embeds `ipaddress.ip_address(str)`: tries IPv4 first, then IPv6, and
returns the canonical string rendering (`str(ip)` in the source). For IPv4
the canonical rendering is dotted decimal; the IPv6 branch returns its
input unrendered because it is unreachable from `get_lights` (the argument
there never contains a colon, while every IPv6 literal does;
`pyIpAddress_noColon_ipv4` makes this precise). -/
def pyIpAddress (cs : List Char) : Option (List Char) :=
  match ipv4Parse cs with
  | some octs => some (renderIPv4 octs)
  | none => if isIPv6 cs then some cs else none

/-- The fatal reference-resolution errors. `get_lights` reports both via
`exit_with_help(message)`, which prints usage plus the message and calls
`sys.exit(1)`; the embedding records which message was produced together
with the offending token. `InvalidAddress` is the message
`"Invalid light specified: {light}"`, `InvalidPort` the message
`"Invalid port specified for light {light}"`. -/
inductive ResolveError where
  | InvalidAddress (token : String)
  | InvalidPort (token : String)
deriving DecidableEq, Repr

/-- Embeds `is_light_number(light_number)`: `int()`-parse the token
(`ValueError` gives `False`), then test
`len(lights) >= light_number and light_number > 0` against the `lights`
global, here passed explicitly. -/
def is_light_number (lights : List Light) (token : String) : Bool :=
  match pyIntParse token.toList with
  | none => false
  | some n => decide ((lights.length : Int) ≥ n ∧ n > 0)

/-- Embeds the body of the `for i, light in enumerate(requested_lights)`
loop of `get_lights` for one reference token: a valid light number is
substituted by the registry entry at `int(light) - 1` (the `getD` default
is unreachable because `is_light_number` bounds the index); otherwise the
token is split at its first colon into `ip` and `port` (no colon: the
whole token is `ip` and `port` starts empty), `ip` must pass
`ipaddress.ip_address` (else `InvalidAddress` aborts), an empty `port`
becomes `default_port` and a nonempty one must `int()`-parse (else
`InvalidPort` aborts), and the resulting light is
`Light(name=light, location=str(ip) + ':' + str(port))`. -/
def resolve_one (lights : List Light) (token : String) : Except ResolveError Light :=
  if is_light_number lights token then
    .ok (lights.getD (((pyIntParse token.toList).getD 0).toNat - 1) ⟨"", ""⟩)
  else
    let (ipStr, portStr) :=
      match splitFirstOn ':' token.toList with
      | some p => p
      | none => (token.toList, [])
    match pyIpAddress ipStr with
    | none => .error (.InvalidAddress token)
    | some ipCanon =>
      match (if portStr.isEmpty then some default_port else pyIntParse portStr) with
      | none => .error (.InvalidPort token)
      | some p => .ok ⟨token, String.mk ipCanon ++ ":" ++ pyIntRepr p⟩

/-- Left-to-right fail-fast traversal: the model of the resolution loop in
`get_lights`, whose first `exit_with_help` terminates the whole process
before any command runs. -/
def mapExcept (f : α → Except ε β) : List α → Except ε (List β)
  | [] => .ok []
  | x :: xs =>
    match f x with
    | .error e => .error e
    | .ok y => (mapExcept f xs).map (fun ys => y :: ys)

/-- Embeds one zeroconf advertisement as the `Light` the listener appends:
`add_service` builds `Light(location=inet_ntoa(addr) + ':' + str(port))`
and fills `name` from the device's `displayName`; the embedding takes the
resulting lights as an input stream, indexed by the wait window during
which they arrive (window `i` contributes `arrivals i`, in arrival order,
appended before that window's termination decision). -/
abbrev ArrivalStream := Nat → List Light

/-- Embeds the non-interactive `while` loop of `find_lights`: each
iteration increments `count`, sleeps five seconds while `arrivals`
accumulate, then breaks once `len(listener.lights)` is truthy or
`count >= 3`. Returns the final `count` and accumulator. -/
def findGo (arrivals : ArrivalStream) (count : Nat) (acc : List Light) : Nat × List Light :=
  let c := count + 1
  let a := acc ++ arrivals count
  if a ≠ [] ∨ c ≥ 3 then (c, a) else findGo arrivals c a
termination_by 3 - count
decreasing_by simp_all; omega

/-- Embeds the interactive `while` loop of `find_lights`: after each wait
window the operator's answer (lower-cased) terminates the loop when it is
one of `yes`, `y`, `ye`, or empty. The source loop is unbounded, so the
embedding carries fuel and returns `none` when the operator has not
stopped it within `fuel` windows. -/
def findGoI (arrivals : ArrivalStream) (answers : Nat → String) :
    Nat → Nat → List Light → Option (List Light)
  | 0, _, _ => none
  | fuel+1, count, acc =>
    let a := acc ++ arrivals count
    if String.mk ((answers count).toList.map Char.toLower) ∈ (["yes", "y", "ye", ""] : List String) then
      some a
    else findGoI arrivals answers fuel (count + 1) a

/-- Embeds `find_lights(interactive)` together with its effect on the
persisted config file, modeled as `Option (List Light)` (`none` =
missing): run the wait loop (interactive or not), then — outside the loop,
on its normal exit — overwrite the file wholesale with the accumulated
list if it is nonempty, leaving the file untouched otherwise. Returns
`none` only when the interactive loop exhausts its fuel (the source would
still be looping). -/
def find_lights (interactive : Bool) (arrivals : ArrivalStream) (answers : Nat → String)
    (fuel : Nat) (file : Option (List Light)) :
    Option (List Light × Option (List Light)) :=
  let found? :=
    if interactive then findGoI arrivals answers fuel 0 []
    else some (findGo arrivals 0 []).2
  found?.map (fun found => (found, if found = [] then file else some found))

/-- The mutable state surrounding `get_lights`: the `lights` global (the
in-memory registry) and the persisted config file. The file is carried at
the resolver level as its decoded sequence of lights, `none` standing for
any state `maybe_load_lights_from_config` fails on; the byte-level
load/save path itself is verified separately (`decodeJson`, `json_load`).
-/
structure ResolverState where
  lights : List Light
  file : Option (List Light)
deriving DecidableEq, Repr

/-- Embeds `maybe_load_lights_from_config` at the resolver level: when the
`lights` global is empty, populate it from the persisted file, an absent
or unreadable file yielding the empty list. -/
def registryAfterLoad (st : ResolverState) : List Light :=
  if st.lights = [] then st.file.getD [] else st.lights

/-- Embeds `get_lights(requested_lights)`. With explicit references: load
the registry if the global is empty, resolve every token in order
(fail-fast, `resolve_one`), then replace the in-memory `lights` global
with the resolved sequence and return it — the persisted file is not
written on this path. With no references: load the registry and return it
when nonempty, otherwise fall back to a non-interactive discovery session
(`find_lights(False)`), which may write the file. -/
def get_lights (arrivals : ArrivalStream) (st : ResolverState) (requested : List String) :
    Except ResolveError (List Light × ResolverState) :=
  if requested.isEmpty then
    let reg := registryAfterLoad st
    if reg ≠ [] then .ok (reg, ⟨reg, st.file⟩)
    else
      let found := (findGo arrivals 0 []).2
      let file := if found = [] then st.file else some found
      .ok (found, ⟨found, file⟩)
  else
    let reg := registryAfterLoad st
    match mapExcept (resolve_one reg) requested with
    | .error e => .error e
    | .ok resolved => .ok (resolved, ⟨resolved, st.file⟩)

deriving instance DecidableEq for Except

/-- JSON values as parsed from the config file, before the `object_hook`
of `json.load` runs (numbers restricted to integers, which is all this
file format ever holds). -/
inductive JVal where
  | jnull
  | jbool (b : Bool)
  | jnum (n : Int)
  | jstr (s : String)
  | jarr (xs : List JVal)
  | jobj (fields : List (String × JVal))

/-- Python values as they exist after `json.load` with
`object_hook=light_from_json`: ordinary JSON data plus `Light` objects,
whose two attributes may hold arbitrary decoded values (Python performs no
type check when constructing `Light`). -/
inductive PyVal where
  | pnone
  | pbool (b : Bool)
  | pnum (n : Int)
  | pstr (s : String)
  | plist (xs : List PyVal)
  | pdict (fields : List (String × PyVal))
  | plight (name location : PyVal)

/-- Embeds `light_to_json(obj)` on `Light` objects: the serialized dict
maps `name` to the light's name and the key `light` (not `location`) to
the light's location. (The function's pass-through branch for non-`Light`
values is exercised only as the `default` hook of `json.dumps` and is not
needed for the registry file, which holds only lights.) -/
def light_to_json (obj : Light) : List (String × JVal) :=
  [("name", .jstr obj.name), ("light", .jstr obj.location)]

/-- The JSON document `find_lights` writes:
`json.dumps(lights, default=light_to_json)`, a top-level array with one
`light_to_json` object per light, in order. -/
def encodeLightsFile (entries : List Light) : JVal :=
  .jarr (entries.map (fun l => .jobj (light_to_json l)))

/-- Python dict lookup `dct[key]` on a dict built by the JSON decoder:
with duplicate keys the last occurrence wins, hence the reversed search.
`none` models a raised `KeyError`. -/
def dictLookup (fields : List (String × PyVal)) (key : String) : Option PyVal :=
  (fields.reverse.find? (fun f => f.1 = key)).map (fun f => f.2)

/-- Embeds `light_from_json(dct)`, the `object_hook` of `json.load`: a
dict with a `light` key becomes `Light(name=dct['name'],
location=dct['light'])` — where the `dct['name']` subscript raises
`KeyError` (modeled as `Except.error`) when the key is absent — and every
other dict passes through unchanged. -/
def light_from_json (fields : List (String × PyVal)) : Except Unit PyVal :=
  if (fields.find? (fun f => f.1 = "light")).isSome then
    match dictLookup fields "name", dictLookup fields "light" with
    | some n, some loc => .ok (.plight n loc)
    | _, _ => .error ()
  else .ok (.pdict fields)

mutual

/-- Embeds JSON decoding as performed by `json.load(f,
object_hook=light_from_json)` on an already-parsed JSON tree: the hook is
applied bottom-up to every object. -/
def decodeJson : JVal → Except Unit PyVal
  | .jnull => .ok .pnone
  | .jbool b => .ok (.pbool b)
  | .jnum n => .ok (.pnum n)
  | .jstr s => .ok (.pstr s)
  | .jarr xs =>
    match decodeJsonList xs with
    | .error e => .error e
    | .ok vs => .ok (.plist vs)
  | .jobj fields =>
    match decodeJsonFields fields with
    | .error e => .error e
    | .ok fs => light_from_json fs

/-- Decodes the elements of a JSON array, in order, fail-fast. -/
def decodeJsonList : List JVal → Except Unit (List PyVal)
  | [] => .ok []
  | x :: xs =>
    match decodeJson x with
    | .error e => .error e
    | .ok v =>
      match decodeJsonList xs with
      | .error e => .error e
      | .ok vs => .ok (v :: vs)

/-- Decodes the field values of a JSON object, in order, fail-fast. -/
def decodeJsonFields : List (String × JVal) → Except Unit (List (String × PyVal))
  | [] => .ok []
  | (k, x) :: fs =>
    match decodeJson x with
    | .error e => .error e
    | .ok v =>
      match decodeJsonFields fs with
      | .error e => .error e
      | .ok vs => .ok ((k, v) :: vs)

end

/-- The states the persisted config file can be in, as seen by
`maybe_load_lights_from_config`: absent (the `open` raises
`FileNotFoundError`), present but unreadable (`open` or `read` raises),
present but not JSON (`json.load` raises), or present with a parsed JSON
document. -/
inductive FileState where
  | missing
  | unreadable
  | invalidJson
  | content (v : JVal)

/-- The result of the `json.load(f, object_hook=light_from_json)` call in
`maybe_load_lights_from_config`: an error for every file state whose open
/ read / parse raises, and the hook-decoded document otherwise (the hook
itself may raise `KeyError`). -/
def json_load : FileState → Except Unit PyVal
  | .content v => decodeJson v
  | _ => .error ()

/-- Python truthiness (`if not lights`) for the values the `lights` global
can hold. -/
def pyFalsy : PyVal → Bool
  | .pnone => true
  | .pbool b => !b
  | .pnum n => n = 0
  | .pstr s => s.isEmpty
  | .plist xs => xs.isEmpty
  | .pdict fields => fields.isEmpty
  | .plight _ _ => false

/-- Embeds `maybe_load_lights_from_config`: when the `lights` global is
falsy, attempt the load and assign the result to the global; the bare
`except: pass` swallows every exception, leaving the global at its old
value. Returns the new value of the `lights` global; in particular it is
total — no exception ever reaches the caller. -/
def maybe_load_lights_from_config (lights : PyVal) (fs : FileState) : PyVal :=
  if pyFalsy lights then
    match json_load fs with
    | .ok v => v
    | .error _ => lights
  else lights

/-- The integer value of the port segment of a location string: the text
after the first colon, `int()`-parsed. Used to state claims about the
port component of an Endpoint Model's location. -/
def locationPort (loc : String) : Option Int :=
  match splitFirstOn ':' loc.toList with
  | some q => pyIntParse q.2
  | none => none

theorem digitVal_digitOfNat {d : Nat} (h : d < 10) : digitVal (digitOfNat d) = d := by
  interval_cases d <;> rfl

theorem isDigit_digitOfNat {d : Nat} (h : d < 10) : (digitOfNat d).isDigit := by
  interval_cases d <;> rfl

theorem digit_toNat_bounds {c : Char} (h : c.isDigit) : 48 ≤ c.toNat ∧ c.toNat ≤ 57 := by
  simp [Char.isDigit] at h
  obtain ⟨h1, h2⟩ := h
  constructor
  · exact h1
  · exact h2

theorem digitOfNat_digitVal {c : Char} (h : c.isDigit) : digitOfNat (digitVal c) = c := by
  obtain ⟨h1, h2⟩ := digit_toNat_bounds h
  unfold digitOfNat digitVal
  rw [Nat.add_sub_cancel' h1]
  exact Char.ofNat_toNat c

theorem digitVal_lt_ten {c : Char} (h : c.isDigit) : digitVal c < 10 := by
  obtain ⟨h1, h2⟩ := digit_toNat_bounds h
  unfold digitVal
  omega

theorem digitOfNat_eq_zeroChar {d : Nat} (h : d < 10) : digitOfNat d = '0' ↔ d = 0 := by
  interval_cases d <;> simp <;> decide

theorem natDigitsAux_eq (fuel n : Nat) (h : n ≤ fuel) : natDigitsAux fuel n = Nat.digits 10 n := by
  induction fuel generalizing n with
  | zero => interval_cases n; simp [natDigitsAux]
  | succ fuel ih =>
    match n with
    | 0 => simp [natDigitsAux]
    | n+1 =>
      rw [natDigitsAux, Nat.digits_def' (by norm_num) (Nat.succ_pos n), ih]
      exact Nat.le_of_lt_succ (Nat.lt_of_lt_of_le (Nat.div_lt_self (Nat.succ_pos n) (by norm_num)) h)

theorem natChars_eq_digits (n : Nat) :
    natChars n = if n = 0 then ['0'] else (Nat.digits 10 n).reverse.map digitOfNat := by
  unfold natChars
  rw [natDigitsAux_eq n n le_rfl]

theorem mem_natChars_isDigit {n : Nat} {c : Char} (h : c ∈ natChars n) : c.isDigit := by
  rw [natChars_eq_digits] at h
  split at h
  · simp at h; subst h; rfl
  · simp at h
    obtain ⟨d, hd, rfl⟩ := h
    exact isDigit_digitOfNat (Nat.digits_lt_base (by norm_num) hd)

theorem natChars_ne_nil (n : Nat) : natChars n ≠ [] := by
  rw [natChars_eq_digits]
  split
  · simp
  · simp [Nat.digits_ne_nil_iff_ne_zero, *]

theorem valOfDigits_natChars (n : Nat) : valOfDigits (natChars n) = n := by
  rw [natChars_eq_digits]
  unfold valOfDigits
  split
  · subst n; rfl
  · rw [List.map_map, List.map_reverse, List.reverse_reverse]
    have : ((Nat.digits 10 n).map (digitVal ∘ digitOfNat)) = (Nat.digits 10 n).map id := by
      apply List.map_congr_left
      intro d hd
      exact digitVal_digitOfNat (Nat.digits_lt_base (by norm_num) hd)
    rw [this, List.map_id, Nat.ofDigits_digits]

theorem digitVal_ne_zero {c : Char} (hd : c.isDigit) (h : c ≠ '0') : digitVal c ≠ 0 := by
  intro h0
  apply h
  have h1 := digitOfNat_digitVal hd
  rw [h0] at h1
  have h2 : digitOfNat 0 = '0' := rfl
  rw [← h1, h2]

theorem natChars_valOfDigits {cs : List Char} (hne : cs ≠ [])
    (hdig : ∀ c ∈ cs, c.isDigit) (hcanon : cs.head? = some '0' → cs = ['0']) :
    natChars (valOfDigits cs) = cs := by
  by_cases hz : cs = ['0']
  · subst hz; rfl
  · obtain ⟨c₀, rest, rfl⟩ := List.exists_cons_of_ne_nil hne
    have hc₀ : c₀ ≠ '0' := by
      intro h
      exact hz (hcanon (by simp [h]))
    set L := (((c₀ :: rest).map digitVal)).reverse with hL
    have hLne : L ≠ [] := by simp [hL]
    have hLlt : ∀ d ∈ L, d < 10 := by
      intro d hd
      rw [hL, List.mem_reverse, List.mem_map] at hd
      obtain ⟨c, hc, rfl⟩ := hd
      exact digitVal_lt_ten (hdig c hc)
    have hlast : ∀ h : L ≠ [], L.getLast h ≠ 0 := by
      intro h
      have h1 : L.getLast? = some (L.getLast h) := List.getLast?_eq_getLast L h
      have h2 : L.getLast? = some (digitVal c₀) := by
        rw [hL, List.getLast?_reverse]
        simp
      rw [h1] at h2
      have := Option.some.inj h2
      rw [this]
      exact digitVal_ne_zero (hdig c₀ (by simp)) hc₀
    have hdig10 : Nat.digits 10 (Nat.ofDigits 10 L) = L :=
      Nat.digits_ofDigits 10 (by norm_num) L hLlt hlast
    have hval : valOfDigits (c₀ :: rest) = Nat.ofDigits 10 L := rfl
    have hvalnz : valOfDigits (c₀ :: rest) ≠ 0 := by
      rw [hval]
      intro h0
      rw [h0] at hdig10
      simp at hdig10
      exact hLne hdig10
    rw [natChars_eq_digits, if_neg hvalnz, hval, hdig10, hL, List.reverse_reverse,
      List.map_map]
    have : ((c₀ :: rest).map (digitOfNat ∘ digitVal)) = ((c₀ :: rest).map id) := by
      apply List.map_congr_left
      intro c hc
      exact digitOfNat_digitVal (hdig c hc)
    rw [this, List.map_id]

theorem splitOnChar_ne_nil (sep : Char) (cs : List Char) : splitOnChar sep cs ≠ [] := by
  cases cs with
  | nil => simp [splitOnChar]
  | cons a rest =>
    simp only [splitOnChar]
    split
    · simp
    · split <;> simp

theorem splitOnChar_of_not_mem {sep : Char} {cs : List Char} (h : sep ∉ cs) :
    splitOnChar sep cs = [cs] := by
  induction cs with
  | nil => rfl
  | cons a rest ih =>
    have ha : a ≠ sep := by intro hh; exact h (by simp [hh])
    have hr : sep ∉ rest := by intro hh; exact h (by simp [hh])
    unfold splitOnChar
    rw [ih hr]
    simp [ha]

theorem joinSep_splitOnChar (sep : Char) (cs : List Char) :
    joinSep sep (splitOnChar sep cs) = cs := by
  induction cs with
  | nil => rfl
  | cons a rest ih =>
    unfold splitOnChar
    match h : splitOnChar sep rest with
    | [] => exact absurd h (splitOnChar_ne_nil sep rest)
    | g :: gs =>
      rw [h] at ih
      by_cases ha : a = sep
      · subst ha
        simp only [if_pos rfl]
        cases gs <;> simp_all [joinSep]
      · simp only [if_neg ha]
        cases gs <;> simp_all [joinSep]

theorem mem_splitOnChar {sep c : Char} {cs : List Char} (hmem : c ∈ cs) :
    c = sep ∨ ∃ g ∈ splitOnChar sep cs, c ∈ g := by
  induction cs with
  | nil => simp at hmem
  | cons a rest ih =>
    unfold splitOnChar
    match h : splitOnChar sep rest with
    | [] => exact absurd h (splitOnChar_ne_nil sep rest)
    | g :: gs =>
      rw [h] at ih
      rcases List.mem_cons.mp hmem with rfl | hrest
      · by_cases ha : c = sep
        · exact Or.inl ha
        · right
          refine ⟨c :: g, ?_, by simp⟩
          simp [ha]
      · rcases ih hrest with hc | ⟨g₂, hg₂, hcg₂⟩
        · exact Or.inl hc
        · right
          rcases List.mem_cons.mp hg₂ with rfl | hgs
          · by_cases ha : a = sep
            · exact ⟨g₂, by simp [ha], hcg₂⟩
            · exact ⟨a :: g₂, by simp [ha], by simp [hcg₂]⟩
          · by_cases ha : a = sep
            · exact ⟨g₂, by simp [ha, hgs], hcg₂⟩
            · exact ⟨g₂, by simp [ha, hgs], hcg₂⟩

theorem mem_dropWhile_or {p : Char → Bool} {c : Char} {cs : List Char} (h : c ∈ cs) :
    c ∈ cs.dropWhile p ∨ p c := by
  induction cs with
  | nil => simp at h
  | cons a rest ih =>
    rw [List.dropWhile_cons]
    rcases List.mem_cons.mp h with rfl | hrest
    · by_cases hp : p c
      · exact Or.inr hp
      · simp [hp]
    · by_cases hp : p a
      · simp only [if_pos hp]
        exact ih hrest
      · simp [hp, hrest]

theorem mem_stripWs_or {c : Char} {cs : List Char} (h : c ∈ cs) :
    c ∈ stripWs cs ∨ isPyWhitespace c := by
  unfold stripWs
  rcases mem_dropWhile_or (p := isPyWhitespace) h with h1 | h1
  · rcases mem_dropWhile_or (p := isPyWhitespace) (List.mem_reverse.mpr h1) with h2 | h2
    · exact Or.inl (List.mem_reverse.mpr h2)
    · exact Or.inr h2
  · exact Or.inr h1

theorem stripWs_eq_self {cs : List Char} (h : ∀ c ∈ cs, ¬ isPyWhitespace c) :
    stripWs cs = cs := by
  unfold stripWs
  have h1 : cs.dropWhile isPyWhitespace = cs := by
    cases cs with
    | nil => rfl
    | cons a rest => rw [List.dropWhile_cons, if_neg (by simp [h a (by simp)])]
  rw [h1]
  have h2 : cs.reverse.dropWhile isPyWhitespace = cs.reverse := by
    cases hr : cs.reverse with
    | nil => rfl
    | cons a rest =>
      have ha : a ∈ cs := by
        rw [← List.mem_reverse, hr]
        simp
      rw [List.dropWhile_cons, if_neg (by simp [h a ha])]
  rw [h2, List.reverse_reverse]

theorem isDigit_not_ws {c : Char} (h : c.isDigit) : ¬ isPyWhitespace c := by
  intro hw
  obtain ⟨h1, _⟩ := digit_toNat_bounds h
  simp [isPyWhitespace] at hw
  rcases hw with rfl | rfl | rfl | rfl | rfl | rfl <;> simp at h1

theorem isDigit_ne {c x : Char} (h : c.isDigit) (hx : ¬ x.isDigit) : c ≠ x := by
  intro heq
  rw [heq] at h
  exact hx h

theorem parseBody_of_digits {cs : List Char} (hne : cs ≠ []) (hdig : ∀ c ∈ cs, c.isDigit) :
    parseBody cs = some (valOfDigits cs) := by
  have hu : '_' ∉ cs := by
    intro hmem
    exact absurd (hdig _ hmem) (by decide)
  unfold parseBody
  rw [splitOnChar_of_not_mem hu]
  have hall : (∀ c ∈ cs, decide (c ≠ '_') = true) := by
    intro c hc
    simp
    exact isDigit_ne (hdig c hc) (by decide)
  rw [List.filter_eq_self.mpr hall]
  simp [hne, List.all_eq_true]
  intro c hc
  exact hdig c hc

theorem pyIntParse_natChars (n : Nat) : pyIntParse (natChars n) = some n := by
  have hdig : ∀ c ∈ natChars n, c.isDigit := fun c hc => mem_natChars_isDigit hc
  obtain ⟨c₀, rest, hcs⟩ := List.exists_cons_of_ne_nil (natChars_ne_nil n)
  have hstrip : stripWs (natChars n) = natChars n :=
    stripWs_eq_self (fun c hc => isDigit_not_ws (hdig c hc))
  have hc₀ : c₀.isDigit := hdig c₀ (by rw [hcs]; simp)
  unfold pyIntParse
  rw [hstrip, hcs]
  dsimp only
  rw [if_neg (isDigit_ne hc₀ (by decide)), if_neg (isDigit_ne hc₀ (by decide))]
  rw [← hcs, parseBody_of_digits (natChars_ne_nil n) hdig, valOfDigits_natChars]
  rfl

theorem toList_mk (cs : List Char) : (String.mk cs).toList = cs := rfl

theorem pyIntParse_pyIntRepr (k : Int) : pyIntParse (pyIntRepr k).toList = some k := by
  unfold pyIntRepr
  split
  · rw [toList_mk]
    have hdig : ∀ c ∈ natChars k.natAbs, c.isDigit := fun c hc => mem_natChars_isDigit hc
    have hstrip : stripWs ('-' :: natChars k.natAbs) = '-' :: natChars k.natAbs := by
      apply stripWs_eq_self
      intro c hc
      rcases List.mem_cons.mp hc with rfl | hc
      · decide
      · exact isDigit_not_ws (hdig c hc)
    unfold pyIntParse
    rw [hstrip]
    dsimp only
    rw [if_neg (by decide), if_pos rfl]
    rw [parseBody_of_digits (natChars_ne_nil _) hdig, valOfDigits_natChars]
    simp
    rw [abs_of_neg (show k < 0 by omega)]
    ring
  · rw [toList_mk, pyIntParse_natChars]
    simp
    omega

theorem parseBody_some_mem {cs : List Char} {v : Nat} (h : parseBody cs = some v) :
    ∀ c ∈ cs, c = '_' ∨ c.isDigit := by
  intro c hc
  simp only [parseBody] at h
  split at h
  · rcases @mem_splitOnChar '_' c cs hc with h1 | ⟨g, hg, hcg⟩
    · exact Or.inl h1
    · right
      rename_i hall
      rw [List.all_eq_true] at hall
      have := hall g hg
      simp at this
      exact this.2 c hcg
  · exact absurd h (by simp)

theorem pyIntParse_some_mem {cs : List Char} {k : Int} (h : pyIntParse cs = some k) :
    ∀ c ∈ cs, isPyWhitespace c ∨ c = '+' ∨ c = '-' ∨ c = '_' ∨ c.isDigit := by
  intro c hc
  unfold pyIntParse at h
  rcases mem_stripWs_or hc with hmem | hws
  case inr => exact Or.inl hws
  right
  cases hs : stripWs cs with
  | nil => rw [hs] at hmem; simp at hmem
  | cons c₀ rest =>
    rw [hs] at h hmem
    dsimp only at h
    split_ifs at h with h1 h2
    · rcases List.mem_cons.mp hmem with rfl | hr
      · exact Or.inl h1
      · rcases Option.map_eq_some'.mp h with ⟨v, hv, _⟩
        have := parseBody_some_mem hv c hr
        tauto
    · rcases List.mem_cons.mp hmem with rfl | hr
      · exact Or.inr (Or.inl h2)
      · rcases Option.map_eq_some'.mp h with ⟨v, hv, _⟩
        have := parseBody_some_mem hv c hr
        tauto
    · rcases Option.map_eq_some'.mp h with ⟨v, hv, _⟩
      have := parseBody_some_mem hv c hmem
      tauto

theorem pyIntParse_of_mem_bad {cs : List Char} {x : Char} (hx : x ∈ cs)
    (h1 : ¬ isPyWhitespace x) (h2 : x ≠ '+') (h3 : x ≠ '-') (h4 : x ≠ '_')
    (h5 : ¬ x.isDigit) : pyIntParse cs = none := by
  cases h : pyIntParse cs with
  | none => rfl
  | some k =>
    rcases pyIntParse_some_mem h x hx with hh | hh | hh | hh | hh <;> tauto


theorem parseOctets_map_natChars {gs : List (List Char)} {os : List Nat}
    (h : parseOctets gs = some os) (hcanon : ∀ g ∈ gs, ∀ v, parseOctet g = some v → natChars v = g) :
    os.map natChars = gs := by
  induction gs generalizing os with
  | nil => simp [parseOctets] at h; subst h; rfl
  | cons g rest ih =>
    unfold parseOctets at h
    cases hg : parseOctet g with
    | none => rw [hg] at h; simp at h
    | some v =>
      rw [hg] at h
      dsimp only at h
      cases hr : parseOctets rest with
      | none => rw [hr] at h; simp at h
      | some vs =>
        rw [hr] at h
        dsimp only at h
        rcases Option.some.inj h with rfl
        rw [List.map_cons]
        rw [hcanon g (by simp) v hg, ih hr (fun g2 hg2 => hcanon g2 (by simp [hg2]))]

theorem parseOctet_natChars {g : List Char} {v : Nat} (h : parseOctet g = some v) :
    natChars v = g := by
  unfold parseOctet at h
  split at h
  · rename_i hcond
    simp only [Bool.and_eq_true, Bool.or_eq_true, decide_eq_true_eq, List.all_eq_true,
      Bool.not_eq_true', List.isEmpty_eq_false] at hcond
    obtain ⟨⟨⟨hne, hdig⟩, _⟩, hlead⟩ := hcond
    simp only [] at h
    split at h
    · have hv := Option.some.inj h
      subst hv
      apply natChars_valOfDigits hne (fun c hc => hdig c hc)
      intro hh
      rcases hlead with hl | hl
      · exact absurd hh (by simpa using hl)
      · simpa using hl
    · exact absurd h (by simp)
  · exact absurd h (by simp)

theorem ipv4Parse_render {cs : List Char} {octs : List Nat} (h : ipv4Parse cs = some octs) :
    renderIPv4 octs = cs := by
  simp only [ipv4Parse] at h
  split at h
  · unfold renderIPv4
    rw [parseOctets_map_natChars h (fun g _ v hv => parseOctet_natChars hv)]
    exact joinSep_splitOnChar '.' cs
  · exact absurd h (by simp)

theorem mem_natChars_ne {n : Nat} {x : Char} (hx : ¬ x.isDigit) : x ∉ natChars n := by
  intro hmem
  exact hx (mem_natChars_isDigit hmem)

theorem mem_renderIPv4 {octs : List Nat} {c : Char} (h : c ∈ renderIPv4 octs) :
    c = '.' ∨ c.isDigit := by
  unfold renderIPv4 at h
  induction octs with
  | nil => simp [joinSep] at h
  | cons o rest ih =>
    cases rest with
    | nil =>
      simp only [List.map_cons, List.map_nil, joinSep] at h
      exact Or.inr (mem_natChars_isDigit h)
    | cons o2 rest2 =>
      simp only [List.map_cons, joinSep, List.mem_append, List.mem_cons] at h
      rcases h with h | h | h
      · exact Or.inr (mem_natChars_isDigit h)
      · exact Or.inl h
      · exact ih (by simpa [joinSep] using h)

theorem ipv4Parse_mem {cs : List Char} {octs : List Nat} (h : ipv4Parse cs = some octs) :
    ∀ c ∈ cs, c = '.' ∨ c.isDigit := by
  intro c hc
  rw [← ipv4Parse_render h] at hc
  exact mem_renderIPv4 hc

theorem isIPv6_of_no_colon {cs : List Char} (h : ':' ∉ cs) : isIPv6 cs = false := by
  unfold isIPv6
  rw [splitOnChar_of_not_mem h]
  simp

theorem pyIpAddress_of_no_colon {cs : List Char} (h : ':' ∉ cs) :
    pyIpAddress cs = (ipv4Parse cs).map (fun octs => renderIPv4 octs) := by
  unfold pyIpAddress
  cases h4 : ipv4Parse cs with
  | some octs => simp
  | none => simp [isIPv6_of_no_colon h]

theorem pyIpAddress_of_no_dot_colon {cs : List Char} (hd : '.' ∉ cs) (hc : ':' ∉ cs) :
    pyIpAddress cs = none := by
  have h4 : ipv4Parse cs = none := by
    simp only [ipv4Parse]
    rw [splitOnChar_of_not_mem hd]
    simp
  rw [pyIpAddress_of_no_colon hc, h4]
  rfl

theorem splitFirstOn_eq_none {sep : Char} {cs : List Char} (h : sep ∉ cs) :
    splitFirstOn sep cs = none := by
  induction cs with
  | nil => rfl
  | cons a rest ih =>
    unfold splitFirstOn
    rw [if_neg (by rintro rfl; exact h (by simp)), ih (by intro hm; exact h (by simp [hm]))]
    rfl

theorem splitFirstOn_append {sep : Char} {a b : List Char} (h : sep ∉ a) :
    splitFirstOn sep (a ++ sep :: b) = some (a, b) := by
  induction a with
  | nil => simp [splitFirstOn]
  | cons x rest ih =>
    rw [List.cons_append]
    unfold splitFirstOn
    rw [if_neg (by rintro rfl; exact h (by simp))]
    rw [ih (by intro hm; exact h (by simp [hm]))]
    rfl

theorem mk_toList (s : String) : String.mk s.toList = s := rfl

theorem is_light_number_true {lights : List Light} {token : String} {n : Int}
    (hp : pyIntParse token.toList = some n) (h1 : 1 ≤ n) (h2 : n ≤ lights.length) :
    is_light_number lights token = true := by
  unfold is_light_number
  rw [hp]
  simp
  omega

theorem is_light_number_false_out {lights : List Light} {token : String} {n : Int}
    (hp : pyIntParse token.toList = some n) (h : n ≤ 0 ∨ (lights.length : Int) < n) :
    is_light_number lights token = false := by
  unfold is_light_number
  rw [hp]
  simp
  intro h1
  omega

theorem is_light_number_false_none {lights : List Light} {token : String}
    (hp : pyIntParse token.toList = none) : is_light_number lights token = false := by
  unfold is_light_number
  rw [hp]

theorem resolve_one_number {lights : List Light} {token : String} {n : Int}
    (hp : pyIntParse token.toList = some n) (h1 : 1 ≤ n) (h2 : n ≤ lights.length) :
    resolve_one lights token = .ok (lights.getD (n.toNat - 1) ⟨"", ""⟩) := by
  unfold resolve_one
  rw [if_pos (is_light_number_true hp h1 h2), hp]
  rfl

theorem ipv4_has_dot {cs : List Char} {octs : List Nat} (h : ipv4Parse cs = some octs) :
    '.' ∈ cs := by
  by_contra hd
  simp only [ipv4Parse, splitOnChar_of_not_mem hd] at h
  simp at h

theorem ipv4_no_colon {cs : List Char} {octs : List Nat} (h : ipv4Parse cs = some octs) :
    ':' ∉ cs := by
  intro hc
  rcases ipv4Parse_mem h ':' hc with hh | hh <;> simp at hh

theorem pyIntRepr_toList_ne_nil (k : Int) : (pyIntRepr k).toList ≠ [] := by
  unfold pyIntRepr
  split <;> simp [toList_mk]
  exact natChars_ne_nil _

theorem mem_pyIntRepr {k : Int} {c : Char} (h : c ∈ (pyIntRepr k).toList) :
    c = '-' ∨ c.isDigit := by
  unfold pyIntRepr at h
  split at h <;> rw [toList_mk] at h
  · rcases List.mem_cons.mp h with rfl | hm
    · exact Or.inl rfl
    · exact Or.inr (mem_natChars_isDigit hm)
  · exact Or.inr (mem_natChars_isDigit h)

theorem pyIntParse_pyIntRepr_some (k : Int) : pyIntParse (pyIntRepr k).toList = some k :=
  pyIntParse_pyIntRepr k

theorem resolve_one_intRepr_out {lights : List Light} {k : Int}
    (h : k ≤ 0 ∨ (lights.length : Int) < k) :
    resolve_one lights (pyIntRepr k) = .error (.InvalidAddress (pyIntRepr k)) := by
  have hnum := is_light_number_false_out (pyIntParse_pyIntRepr k) h
  have hnd : '.' ∉ (pyIntRepr k).toList := by
    intro hm
    rcases mem_pyIntRepr hm with hh | hh <;> simp at hh
  have hnc : ':' ∉ (pyIntRepr k).toList := by
    intro hm
    rcases mem_pyIntRepr hm with hh | hh <;> simp at hh
  unfold resolve_one
  rw [hnum]
  simp only [Bool.false_eq_true, if_false]
  rw [splitFirstOn_eq_none hnc]
  simp only []
  rw [pyIpAddress_of_no_dot_colon hnd hnc]

theorem toList_append (a b : String) : (a ++ b).toList = a.toList ++ b.toList := by
  simp [String.toList, String.data_append]

theorem resolve_one_ipv4_port {lights : List Light} {h : String} {octs : List Nat} {p : Int}
    (hip : ipv4Parse h.toList = some octs) :
    resolve_one lights (h ++ ":" ++ pyIntRepr p) = .ok ⟨h ++ ":" ++ pyIntRepr p, h ++ ":" ++ pyIntRepr p⟩ := by
  have hnc : ':' ∉ h.toList := ipv4_no_colon hip
  have htl : (h ++ ":" ++ pyIntRepr p).toList = h.toList ++ ':' :: (pyIntRepr p).toList := by
    rw [toList_append, toList_append]
    simp
  have hnum : is_light_number lights (h ++ ":" ++ pyIntRepr p) = false := by
    apply is_light_number_false_none
    rw [htl]
    exact pyIntParse_of_mem_bad (x := ':') (by simp) (by decide) (by decide) (by decide)
      (by decide) (by decide)
  unfold resolve_one
  rw [hnum]
  simp only [Bool.false_eq_true, if_false]
  rw [htl, splitFirstOn_append hnc]
  simp only []
  rw [pyIpAddress_of_no_colon hnc, hip]
  simp only [Option.map_some']
  rw [List.isEmpty_eq_false.mpr (pyIntRepr_toList_ne_nil p)]
  simp only [Bool.false_eq_true, if_false]
  rw [pyIntParse_pyIntRepr]
  have hrender : String.mk (renderIPv4 octs) = h := by
    rw [ipv4Parse_render hip]
    exact mk_toList h
  rw [hrender]

theorem pyIntRepr_default_port : pyIntRepr default_port = "9123" := by decide

theorem resolve_one_ipv4_bare {lights : List Light} {h : String} {octs : List Nat}
    (hip : ipv4Parse h.toList = some octs) :
    resolve_one lights h = .ok ⟨h, h ++ ":9123"⟩ := by
  have hnc : ':' ∉ h.toList := ipv4_no_colon hip
  have hnum : is_light_number lights h = false := by
    apply is_light_number_false_none
    exact pyIntParse_of_mem_bad (x := '.') (ipv4_has_dot hip) (by decide) (by decide)
      (by decide) (by decide) (by decide)
  unfold resolve_one
  rw [hnum]
  simp only [Bool.false_eq_true, if_false]
  rw [splitFirstOn_eq_none hnc]
  simp only []
  rw [pyIpAddress_of_no_colon hnc, hip]
  simp only [Option.map_some', List.isEmpty_nil, if_true]
  have hrender : String.mk (renderIPv4 octs) = h := by
    rw [ipv4Parse_render hip]
    exact mk_toList h
  rw [hrender, pyIntRepr_default_port, String.append_assoc]
  rfl

theorem mapExcept_error {f : α → Except ε β} {ts : List α}
    (h : ∃ t ∈ ts, ∃ e, f t = .error e) : ∃ e2, mapExcept f ts = .error e2 := by
  induction ts with
  | nil => simp at h
  | cons t rest ih =>
    obtain ⟨t2, ht2, e, he⟩ := h
    rcases List.mem_cons.mp ht2 with rfl | hmem
    · exact ⟨e, by simp [mapExcept, he]⟩
    · cases hft : f t with
      | error e3 => exact ⟨e3, by simp [mapExcept, hft]⟩
      | ok y =>
        obtain ⟨e2, he2⟩ := ih ⟨t2, hmem, e, he⟩
        exact ⟨e2, by simp [mapExcept, hft, he2, Except.map]⟩

theorem get_lights_explicit_state {arrivals : ArrivalStream} {st : ResolverState}
    {requested : List String} {res : List Light} {st2 : ResolverState}
    (hne : requested ≠ []) (h : get_lights arrivals st requested = .ok (res, st2)) :
    st2.lights = res ∧ st2.file = st.file ∧ mapExcept (resolve_one (registryAfterLoad st)) requested = .ok res := by
  unfold get_lights at h
  rw [if_neg (by simp [hne])] at h
  simp only [] at h
  cases hm : mapExcept (resolve_one (registryAfterLoad st)) requested with
  | error e => rw [hm] at h; simp at h
  | ok resolved =>
    rw [hm] at h
    dsimp only at h
    have h2 := Except.ok.inj h
    have hres : resolved = res := congrArg Prod.fst h2
    have hst : ({ lights := resolved, file := st.file } : ResolverState) = st2 := congrArg Prod.snd h2
    subst hres
    subst hst
    exact ⟨rfl, rfl, rfl⟩

theorem get_lights_explicit_error {arrivals : ArrivalStream} {st : ResolverState}
    {requested : List String}
    (h : ∃ t ∈ requested, ∃ e, resolve_one (registryAfterLoad st) t = .error e) :
    ∃ e2, get_lights arrivals st requested = .error e2 := by
  have hne : requested ≠ [] := by
    obtain ⟨t, ht, _⟩ := h
    intro hnil
    rw [hnil] at ht
    simp at ht
  obtain ⟨e2, he2⟩ := mapExcept_error h
  refine ⟨e2, ?_⟩
  unfold get_lights
  rw [if_neg (by simp [hne])]
  simp only []
  rw [he2]

theorem findGo_stop1 {arrivals : ArrivalStream} (h : arrivals 0 ≠ []) :
    findGo arrivals 0 [] = (1, arrivals 0) := by
  rw [findGo]
  simp [h]

theorem findGo_stop2 {arrivals : ArrivalStream} (h0 : arrivals 0 = []) (h1 : arrivals 1 ≠ []) :
    findGo arrivals 0 [] = (2, arrivals 1) := by
  rw [findGo]
  simp [h0]
  rw [findGo]
  simp [h0, h1]

theorem findGo_stop3 {arrivals : ArrivalStream} (h0 : arrivals 0 = []) (h1 : arrivals 1 = []) :
    findGo arrivals 0 [] = (3, arrivals 2) := by
  rw [findGo]
  simp [h0]
  rw [findGo]
  simp [h0, h1]
  rw [findGo]
  simp [h0, h1]

theorem find_lights_file {interactive : Bool} {arrivals : ArrivalStream}
    {answers : Nat → String} {fuel : Nat} {file : Option (List Light)}
    {found : List Light} {file2 : Option (List Light)}
    (h : find_lights interactive arrivals answers fuel file = some (found, file2)) :
    (found ≠ [] → file2 = some found) ∧ (found = [] → file2 = file) := by
  unfold find_lights at h
  cases hf : (if interactive then findGoI arrivals answers fuel 0 []
      else some (findGo arrivals 0 []).2) with
  | none => rw [hf] at h; simp at h
  | some fnd =>
    rw [hf] at h
    simp only [Option.map_some'] at h
    have h2 := Option.some.inj h
    have hfnd : fnd = found := congrArg Prod.fst h2
    have hfl : (if fnd = [] then file else some fnd) = file2 := congrArg Prod.snd h2
    subst hfnd
    constructor
    · intro hne
      rw [if_neg hne] at hfl
      exact hfl.symm
    · intro he
      rw [if_pos he] at hfl
      exact hfl.symm

theorem resolve_one_addr_shape {lights : List Light} {token : String} {l : Light}
    (hnum : is_light_number lights token = false)
    (hok : resolve_one lights token = .ok l) :
    l.name = token ∧
    ∃ ipC, ∃ p : Int, pyIpAddress (match splitFirstOn ':' token.toList with
        | some q => q.1
        | none => token.toList) = some ipC ∧
      l.location = String.mk ipC ++ ":" ++ pyIntRepr p ∧
      (splitFirstOn ':' token.toList = none → p = default_port) := by
  unfold resolve_one at hok
  rw [hnum] at hok
  simp only [Bool.false_eq_true, if_false] at hok
  cases hs : splitFirstOn ':' token.toList with
  | none =>
    rw [hs] at hok
    dsimp only at hok
    cases hip : pyIpAddress token.toList with
    | none => rw [hip] at hok; simp at hok
    | some ipC =>
      rw [hip] at hok
      dsimp only at hok
      simp only [List.isEmpty_nil, if_true] at hok
      have hl := Except.ok.inj hok
      subst hl
      exact ⟨rfl, ipC, default_port, rfl, rfl, fun _ => rfl⟩
  | some q =>
    rw [hs] at hok
    dsimp only at hok
    cases hip : pyIpAddress q.1 with
    | none => rw [hip] at hok; simp at hok
    | some ipC =>
      rw [hip] at hok
      dsimp only at hok
      cases hpo : (if q.2.isEmpty then some default_port else pyIntParse q.2) with
      | none => rw [hpo] at hok; simp at hok
      | some p =>
        rw [hpo] at hok
        dsimp only at hok
        have hl := Except.ok.inj hok
        subst hl
        exact ⟨rfl, ipC, p, rfl, rfl, fun hn => by simp at hn⟩

theorem decodeJsonList_lights (es : List Light) :
    decodeJsonList (es.map (fun l => JVal.jobj (light_to_json l)))
      = .ok (es.map (fun l => PyVal.plight (.pstr l.name) (.pstr l.location))) := by
  induction es with
  | nil => rfl
  | cons l rest ih =>
    rw [List.map_cons, decodeJsonList]
    have hhead : decodeJson (.jobj (light_to_json l))
        = .ok (.plight (.pstr l.name) (.pstr l.location)) := rfl
    rw [hhead, ih]
    rfl

/-- C1: for every registry of length N and integer k with 1 <= k <= N,
resolving the token str(k) returns the registry entry at position k-1; for
k <= 0 or k > N the token falls through to address parsing and fails with
InvalidAddress (str(k), being sign and digits only, is never a valid
address); in particular the token "0" produces the invalid-light error,
not a range error. -/
theorem C1_numeric_reference (reg : List Light) (k : Int) :
    (1 ≤ k → k ≤ (reg.length : Int) →
      resolve_one reg (pyIntRepr k) = .ok (reg.getD (k.toNat - 1) ⟨"", ""⟩)) ∧
    (k ≤ 0 ∨ (reg.length : Int) < k →
      resolve_one reg (pyIntRepr k) = .error (.InvalidAddress (pyIntRepr k))) ∧
    resolve_one reg "0" = .error (.InvalidAddress "0") := by
  refine ⟨?_, ?_, ?_⟩
  · intro h1 h2
    exact resolve_one_number (pyIntParse_pyIntRepr k) h1 h2
  · intro h
    exact resolve_one_intRepr_out h
  · have h := @resolve_one_intRepr_out reg 0 (Or.inl le_rfl)
    rw [show pyIntRepr 0 = "0" from by decide] at h
    exact h

/-- C1 witness at a one-entry registry: token "1" resolves to the entry,
token "2" and token "0" fail with the invalid-light error. -/
theorem C1_numeric_reference_witness :
    resolve_one [⟨"Desk", "10.0.0.5:9123"⟩] (pyIntRepr 1)
      = .ok ((([⟨"Desk", "10.0.0.5:9123"⟩] : List Light)).getD ((1 : Int).toNat - 1) ⟨"", ""⟩) ∧
    resolve_one [⟨"Desk", "10.0.0.5:9123"⟩] (pyIntRepr 2)
      = .error (.InvalidAddress (pyIntRepr 2)) ∧
    resolve_one [⟨"Desk", "10.0.0.5:9123"⟩] "0" = .error (.InvalidAddress "0") :=
  ⟨(C1_numeric_reference [⟨"Desk", "10.0.0.5:9123"⟩] 1).1 (by decide) (by decide),
   (C1_numeric_reference [⟨"Desk", "10.0.0.5:9123"⟩] 2).2.1 (Or.inr (by decide)),
   (C1_numeric_reference [⟨"Desk", "10.0.0.5:9123"⟩] 0).2.2⟩

/-- C2 counterexample: "::1" is a syntactically valid IPv6 literal (the
loopback address; `isIPv6` certifies it against the model of the stdlib
IPv6 parser) and 80 is a port with 1 <= 80 <= 65535, yet resolving
"::1:80" aborts with InvalidAddress instead of yielding an Endpoint Model
with location "::1:80": `get_lights` splits the token at its FIRST colon,
so the host segment submitted to address validation is "". -/
theorem C2_address_reference_counterexample :
    isIPv6 ("::1".toList) = true ∧ (1 : Int) ≤ 80 ∧ (80 : Int) ≤ 65535 ∧
    resolve_one [] ("::1" ++ ":" ++ pyIntRepr 80)
      = .error (.InvalidAddress ("::1" ++ ":" ++ pyIntRepr 80)) :=
  ⟨by decide, by decide, by decide, rfl⟩

/-- C2 amended: for every syntactically valid IPv4 literal h and integer
port p with 1 <= p <= 65535, resolving "h:p" yields an Endpoint Model with
location "h:p" and name "h:p", and resolving the bare token "h" (no colon)
yields location "h:9123" and name "h". IPv6 literals are excluded: the
token is split at its first colon, so no IPv6 reference (with or without a
port) ever passes address validation. -/
theorem C2_address_reference_amended (reg : List Light) (h : String) (octs : List Nat) (p : Int) :
    (ipv4Parse h.toList = some octs → 1 ≤ p → p ≤ 65535 →
      resolve_one reg (h ++ ":" ++ pyIntRepr p)
        = .ok ⟨h ++ ":" ++ pyIntRepr p, h ++ ":" ++ pyIntRepr p⟩) ∧
    (ipv4Parse h.toList = some octs → resolve_one reg h = .ok ⟨h, h ++ ":9123"⟩) := by
  refine ⟨?_, ?_⟩
  · intro hip _ _
    exact resolve_one_ipv4_port hip
  · intro hip
    exact resolve_one_ipv4_bare hip

/-- C2 witness at h = "10.0.0.5", p = 80: the "h:p" and bare-"h" forms
resolve to the canonical locations. -/
theorem C2_address_reference_witness :
    resolve_one [] ("10.0.0.5" ++ ":" ++ pyIntRepr 80)
      = .ok ⟨"10.0.0.5" ++ ":" ++ pyIntRepr 80, "10.0.0.5" ++ ":" ++ pyIntRepr 80⟩ ∧
    resolve_one [] "10.0.0.5" = .ok ⟨"10.0.0.5", "10.0.0.5" ++ ":9123"⟩ :=
  ⟨(C2_address_reference_amended [] "10.0.0.5" [10, 0, 0, 5] 80).1 (by decide) (by decide)
      (by decide),
   (C2_address_reference_amended [] "10.0.0.5" [10, 0, 0, 5] 80).2 (by decide)⟩

/-- C3 counterexample: with a persisted registry holding the Desk entry,
resolving the explicit reference list ["1.2.3.4"] succeeds, yet the
persisted file still holds the old Desk entry afterwards — it is not
replaced with the newly resolved sequence. Only the in-memory `lights`
global is replaced; `get_lights` contains no file write. -/
theorem C3_registry_overwrite_counterexample :
    get_lights (fun _ => []) ⟨[], some [⟨"Desk", "10.0.0.5:9123"⟩]⟩ ["1.2.3.4"]
      = .ok ([⟨"1.2.3.4", "1.2.3.4:9123"⟩],
          ⟨[⟨"1.2.3.4", "1.2.3.4:9123"⟩], some [⟨"Desk", "10.0.0.5:9123"⟩]⟩) ∧
    (some [⟨"Desk", "10.0.0.5:9123"⟩] : Option (List Light))
      ≠ some [⟨"1.2.3.4", "1.2.3.4:9123"⟩] :=
  ⟨rfl, by decide⟩

/-- C3 amended: whenever the Reference Resolver is given explicit
references and all of them resolve, the in-memory registry (the `lights`
global) is replaced wholesale with the newly resolved sequence, and the
persisted registry file is left untouched — the resolver never writes the
file (only a successful Discovery Session does). -/
theorem C3_registry_overwrite_amended (arrivals : ArrivalStream) (st : ResolverState)
    (requested : List String) (res : List Light) (st2 : ResolverState)
    (hne : requested ≠ []) (h : get_lights arrivals st requested = .ok (res, st2)) :
    st2.lights = res ∧ st2.file = st.file := by
  obtain ⟨h1, h2, _⟩ := get_lights_explicit_state hne h
  exact ⟨h1, h2⟩

/-- C3 witness: the amended claim applied to the counterexample run. -/
theorem C3_registry_overwrite_witness :
    (ResolverState.mk [⟨"1.2.3.4", "1.2.3.4:9123"⟩] (some [⟨"Desk", "10.0.0.5:9123"⟩])).lights
      = [⟨"1.2.3.4", "1.2.3.4:9123"⟩] ∧
    (ResolverState.mk [⟨"1.2.3.4", "1.2.3.4:9123"⟩] (some [⟨"Desk", "10.0.0.5:9123"⟩])).file
      = (ResolverState.mk [] (some [⟨"Desk", "10.0.0.5:9123"⟩])).file :=
  C3_registry_overwrite_amended (fun _ => []) ⟨[], some [⟨"Desk", "10.0.0.5:9123"⟩]⟩
    ["1.2.3.4"] [⟨"1.2.3.4", "1.2.3.4:9123"⟩]
    ⟨[⟨"1.2.3.4", "1.2.3.4:9123"⟩], some [⟨"Desk", "10.0.0.5:9123"⟩]⟩ (by decide) rfl

/-- C4: the non-interactive Discovery Session terminates after the first
5-second wait window at whose end the accumulator is nonempty, and
otherwise after exactly 3 windows, returning the (possibly empty)
accumulated sequence: one advertisement during window 1 stops the loop at
window 1; an empty window 1 followed by arrivals in window 2 stops it at
window 2; two empty windows run the loop to window 3 regardless; zero
advertisements overall give exactly 3 windows and an empty result. -/
theorem C4_noninteractive_termination (arrivals : ArrivalStream) :
    (arrivals 0 ≠ [] → findGo arrivals 0 [] = (1, arrivals 0)) ∧
    (arrivals 0 = [] → arrivals 1 ≠ [] → findGo arrivals 0 [] = (2, arrivals 1)) ∧
    (arrivals 0 = [] → arrivals 1 = [] → findGo arrivals 0 [] = (3, arrivals 2)) ∧
    ((∀ i, i < 3 → arrivals i = []) → findGo arrivals 0 [] = (3, [])) := by
  refine ⟨findGo_stop1, findGo_stop2, findGo_stop3, ?_⟩
  intro h
  rw [findGo_stop3 (h 0 (by norm_num)) (h 1 (by norm_num)), h 2 (by norm_num)]

/-- C4 witness: with no advertisements at all the loop runs exactly 3
windows and returns the empty list; with one advertisement in the first
window it stops after window 1. -/
theorem C4_noninteractive_termination_witness :
    findGo (fun _ => []) 0 [] = (3, []) ∧
    findGo (fun i => if i = 0 then [⟨"A", "1.2.3.4:9123"⟩] else []) 0 []
      = (1, [⟨"A", "1.2.3.4:9123"⟩]) :=
  ⟨(C4_noninteractive_termination (fun _ => [])).2.2.2 (fun _ _ => rfl),
   by
    have h := (C4_noninteractive_termination
      (fun i => if i = 0 then [⟨"A", "1.2.3.4:9123"⟩] else [])).1 (by decide)
    simpa using h⟩

/-- C5: reference resolution is strict and fail-fast — if any token in the
list is malformed, the whole `get_lights` call aborts with an error (the
process exits nonzero before any command applies to the valid subset);
"1.2.3.4:notaport" fails with InvalidPort and "999.999.999.999" fails with
InvalidAddress. -/
theorem C5_fail_fast :
    (∀ (arrivals : ArrivalStream) (st : ResolverState) (requested : List String),
      (∃ t ∈ requested, ∃ e, resolve_one (registryAfterLoad st) t = .error e) →
      ∃ e2, get_lights arrivals st requested = .error e2) ∧
    resolve_one [] "1.2.3.4:notaport" = .error (.InvalidPort "1.2.3.4:notaport") ∧
    resolve_one [] "999.999.999.999" = .error (.InvalidAddress "999.999.999.999") :=
  ⟨fun _ _ _ h => get_lights_explicit_error h, rfl, rfl⟩

/-- C5 witness: a mixed list whose second token has a bad port aborts the
whole call. -/
theorem C5_fail_fast_witness :
    ∃ e2, get_lights (fun _ => []) ⟨[], none⟩ ["1.2.3.4", "1.2.3.4:notaport"]
      = .error e2 :=
  C5_fail_fast.1 (fun _ => []) ⟨[], none⟩ ["1.2.3.4", "1.2.3.4:notaport"]
    ⟨"1.2.3.4:notaport", by simp, .InvalidPort "1.2.3.4:notaport", rfl⟩

/-- C6: registry load is total and silent on failure — for every on-disk
state on which the load raises (missing file, unreadable file, content
that is not JSON, or JSON whose decoding hook raises), the bare `except:
pass` leaves the registry empty, and the load never raises to the caller
(when the load does succeed the registry simply becomes the decoded
value). -/
theorem C6_silent_load :
    (∀ fs, json_load fs = .error () →
      maybe_load_lights_from_config (.plist []) fs = .plist []) ∧
    (∀ fs v, json_load fs = .ok v →
      maybe_load_lights_from_config (.plist []) fs = v) ∧
    json_load .missing = .error () ∧
    json_load .unreadable = .error () ∧
    json_load .invalidJson = .error () ∧
    json_load (.content (.jarr [.jobj [("light", .jstr "x")]])) = .error () := by
  refine ⟨?_, ?_, rfl, rfl, rfl, rfl⟩
  · intro fs h
    simp [maybe_load_lights_from_config, pyFalsy, h]
  · intro fs v h
    simp [maybe_load_lights_from_config, pyFalsy, h]

/-- C6 witness: a missing file loads as the empty registry. -/
theorem C6_silent_load_witness :
    maybe_load_lights_from_config (.plist []) .missing = .plist [] :=
  C6_silent_load.1 .missing rfl

/-- C7: save/load round-trip — serializing any sequence of lights with
`light_to_json` (mapping `location` to the on-disk key "light") and
loading the resulting document back through the `light_from_json` hook
returns the same sequence: same order, same name and location on each
element. -/
theorem C7_save_load_roundtrip (entries : List Light) :
    maybe_load_lights_from_config (.plist []) (.content (encodeLightsFile entries))
      = .plist (entries.map (fun l => PyVal.plight (.pstr l.name) (.pstr l.location))) := by
  have hdec : json_load (.content (encodeLightsFile entries))
      = .ok (.plist (entries.map (fun l => PyVal.plight (.pstr l.name) (.pstr l.location)))) := by
    show decodeJson (encodeLightsFile entries) = _
    unfold encodeLightsFile decodeJson
    rw [decodeJsonList_lights entries]
  simp [maybe_load_lights_from_config, pyFalsy, hdec]

/-- C8: on every normal termination path of a Discovery Session
(interactive or not), a nonempty accumulated result overwrites the
persisted registry file wholesale, and an empty result leaves the file
untouched. -/
theorem C8_discovery_persistence (interactive : Bool) (arrivals : ArrivalStream)
    (answers : Nat → String) (fuel : Nat) (file : Option (List Light))
    (found : List Light) (file2 : Option (List Light))
    (h : find_lights interactive arrivals answers fuel file = some (found, file2)) :
    (found ≠ [] → file2 = some found) ∧ (found = [] → file2 = file) :=
  find_lights_file h

/-- C8 witness: an interactive session that finds one light and is then
stopped by the operator overwrites the file with exactly that light. -/
theorem C8_discovery_persistence_witness :
    (([⟨"A", "1.2.3.4:9123"⟩] : List Light) ≠ [] →
      (some [⟨"A", "1.2.3.4:9123"⟩] : Option (List Light)) = some [⟨"A", "1.2.3.4:9123"⟩]) ∧
    (([⟨"A", "1.2.3.4:9123"⟩] : List Light) = [] →
      (some [⟨"A", "1.2.3.4:9123"⟩] : Option (List Light)) = none) :=
  C8_discovery_persistence true (fun i => if i = 0 then [⟨"A", "1.2.3.4:9123"⟩] else [])
    (fun i => if i = 0 then "n" else "y") 2 none [⟨"A", "1.2.3.4:9123"⟩]
    (some [⟨"A", "1.2.3.4:9123"⟩]) rfl

/-- C9 counterexample: the resolver accepts the reference "1.2.3.4:0" and
lets an Endpoint Model with port component 0 — not a positive integer —
escape: the port segment is `int()`-parsed but never range-checked. -/
theorem C9_port_invariant_counterexample :
    resolve_one [] "1.2.3.4:0" = .ok ⟨"1.2.3.4:0", "1.2.3.4:0"⟩ ∧
    locationPort "1.2.3.4:0" = some 0 ∧ ¬ (0 : Int) > 0 :=
  ⟨rfl, rfl, by decide⟩

/-- C9 amended: every Endpoint Model produced by the address path of the
resolver has a fully qualified location — a validated address, a colon,
and the decimal rendering of an integer port, the port being 9123 exactly
when the reference had no colon — but the port is NOT checked positive:
any `int()`-parsable port segment is accepted, so 0 (and negative values)
escape, as "1.2.3.4:0" shows. -/
theorem C9_port_invariant_amended :
    (∀ (lights : List Light) (token : String) (l : Light),
      is_light_number lights token = false → resolve_one lights token = .ok l →
      l.name = token ∧
      ∃ ipC, ∃ p : Int, pyIpAddress (match splitFirstOn ':' token.toList with
          | some q => q.1
          | none => token.toList) = some ipC ∧
        l.location = String.mk ipC ++ ":" ++ pyIntRepr p ∧
        (splitFirstOn ':' token.toList = none → p = default_port)) ∧
    resolve_one [] "1.2.3.4:0" = .ok ⟨"1.2.3.4:0", "1.2.3.4:0"⟩ :=
  ⟨fun _ _ _ hnum hok => resolve_one_addr_shape hnum hok, rfl⟩

/-- C9 witness: the shape invariant at the resolved reference
"10.0.0.5" (no colon, so the default port 9123 is used). -/
theorem C9_port_invariant_witness :
    (Light.mk "10.0.0.5" ("10.0.0.5" ++ ":9123")).name = "10.0.0.5" ∧
    ∃ ipC, ∃ p : Int, pyIpAddress (match splitFirstOn ':' ("10.0.0.5").toList with
        | some q => q.1
        | none => ("10.0.0.5").toList) = some ipC ∧
      (Light.mk "10.0.0.5" ("10.0.0.5" ++ ":9123")).location
        = String.mk ipC ++ ":" ++ pyIntRepr p ∧
      (splitFirstOn ':' ("10.0.0.5").toList = none → p = default_port) :=
  C9_port_invariant_amended.1 [] "10.0.0.5" ⟨"10.0.0.5", "10.0.0.5" ++ ":9123"⟩
    (by decide) (by decide)

/-- C10: numeric-reference detection uses Python's lenient `int()`
parsing, so any token it accepts — surrounding whitespace, a leading plus
sign, digit-group underscores — whose value is in range resolves to the
corresponding registry entry rather than being parsed as an address; in
particular " 1 ", "+2" and "1_0" parse to 1, 2 and 10. -/
theorem C10_lenient_numeric_detection :
    (∀ (reg : List Light) (token : String) (k : Int),
      pyIntParse token.toList = some k → 1 ≤ k → k ≤ (reg.length : Int) →
      resolve_one reg token = .ok (reg.getD (k.toNat - 1) ⟨"", ""⟩)) ∧
    pyIntParse (" 1 ".toList) = some 1 ∧
    pyIntParse ("+2".toList) = some 2 ∧
    pyIntParse ("1_0".toList) = some 10 :=
  ⟨fun _ _ _ hp h1 h2 => resolve_one_number hp h1 h2, by decide, by decide, by decide⟩

/-- C10 witness: the whitespace-padded token " 1 " resolves to the first
registry entry. -/
theorem C10_lenient_numeric_detection_witness :
    resolve_one [⟨"Desk", "10.0.0.5:9123"⟩] " 1 "
      = .ok ((([⟨"Desk", "10.0.0.5:9123"⟩] : List Light)).getD ((1 : Int).toNat - 1) ⟨"", ""⟩) :=
  C10_lenient_numeric_detection.1 [⟨"Desk", "10.0.0.5:9123"⟩] " 1 " 1 (by decide)
    (by decide) (by decide)
